import Mathlib

/-!
Verification of the blockid-backend trust-scoring core.

The Python source is shallowly embedded:
* Python ints become `ℤ` (or `ℕ` where the source value is a length or a hash),
* Python floats become `ℝ` (ideal real arithmetic; every float the pipeline
  manipulates is a rational, and the one transcendental operation,
  `ratio ** 0.6`, is modelled by the exact real power `Real.rpow`),
* `round` is Python's round-half-to-even, modelled by `pyRound`,
* the RPC fetch and the wall clock are passed in as explicit parameters.
-/

namespace BlockId

/-! ## Python rounding -/

/-- Python's builtin `round(x)`: round half to even, returning an integer. -/
noncomputable def pyRound (x : ℝ) : ℤ :=
  if x - ⌊x⌋ < 1 / 2 then ⌊x⌋
  else if 1 / 2 < x - ⌊x⌋ then ⌊x⌋ + 1
  else if 2 ∣ ⌊x⌋ then ⌊x⌋ else ⌊x⌋ + 1

/-- Python's `round(x, 1)`: round half to even at one decimal place. -/
noncomputable def roundTo1 (x : ℝ) : ℝ :=
  (pyRound (10 * x) : ℝ) / 10

/-! ## Constants from `analyzer.py` and `scoring.py` -/

def TX_COUNT_FOR_FULL_ACTIVITY : ℤ := 100

def ACTIVITY_LEVEL_LOW_THRESHOLD : ℝ := 40.0

def ACTIVITY_LEVEL_HIGH_THRESHOLD : ℝ := 70.0

def SECONDS_PER_MONTH : ℤ := 30 * 24 * 3600

def MOCK_AGE_CAP_MONTHS : ℕ := 24

def RISK_NEW_WALLET : String := "new_wallet"

def RISK_LOW_ACTIVITY : String := "low_activity"

def RISK_HIGH_CHURN : String := "high_churn"

def RISK_SUSPICIOUS_PATTERNS : String := "suspicious_patterns"

def WEIGHT_AGE : ℝ := 0.30

def WEIGHT_ACTIVITY : ℝ := 0.50

def WEIGHT_RISK : ℝ := 0.20

def AGE_SCORE_PER_MONTH : ℝ := 4.0

def PENALTY_PER_FLAG : ℝ := 25.0

def THRESHOLD_LOW : ℤ := 70

def THRESHOLD_MEDIUM : ℤ := 40

/-! ## Python's `str.strip`

`pyStrip` embeds Python's `str.strip()`: remove leading and trailing
whitespace. It is defined on the character list so that idempotence —
which the double strip in `analyze_wallet` / `_mock_wallet_age_months`
makes relevant — is provable. -/

def isPySpace (c : Char) : Bool := c.isWhitespace

/-- Embeds Python's `str.strip()`. -/
def pyStrip (s : String) : String :=
  String.mk (((s.data.dropWhile isPySpace).reverse.dropWhile isPySpace).reverse)

theorem dropWhile_idem {α : Type} (p : α → Bool) (l : List α) :
    List.dropWhile p (List.dropWhile p l) = List.dropWhile p l := by
  induction l with
  | nil => rfl
  | cons a t ih =>
    by_cases h : p a
    · rw [List.dropWhile_cons, if_pos h]
      exact ih
    · rw [List.dropWhile_cons, if_neg h, List.dropWhile_cons, if_neg h]

theorem dropWhile_head_false {α : Type} (p : α → Bool) (l : List α) {a : α} {t : List α}
    (h : List.dropWhile p l = a :: t) : p a = false := by
  induction l with
  | nil => simp at h
  | cons x xs ih =>
    by_cases hx : p x
    · rw [List.dropWhile_cons, if_pos hx] at h
      exact ih h
    · rw [List.dropWhile_cons, if_neg hx] at h
      cases h
      exact Bool.of_not_eq_true hx

theorem dropWhile_getLast? {α : Type} (p : α → Bool) (l : List α)
    (h : List.dropWhile p l ≠ []) : (List.dropWhile p l).getLast? = l.getLast? := by
  induction l with
  | nil => simp at h
  | cons x xs ih =>
    by_cases hx : p x
    · rw [List.dropWhile_cons, if_pos hx] at h ⊢
      rw [ih h]
      have hxs : xs ≠ [] := by
        intro he
        rw [he] at h
        simp at h
      cases xs with
      | nil => exact absurd rfl hxs
      | cons b bs => rw [List.getLast?_cons_cons]
    · rw [List.dropWhile_cons, if_neg hx]

theorem dropWhile_eq_self_of_head {α : Type} (p : α → Bool) (l : List α)
    (h : ∀ a, l.head? = some a → p a = false) : List.dropWhile p l = l := by
  cases l with
  | nil => rfl
  | cons x xs =>
    have hx := h x rfl
    simp [List.dropWhile_cons, hx]

/-- Stripping is idempotent: `s.strip().strip() == s.strip()`. -/
theorem pyStrip_idem (s : String) : pyStrip (pyStrip s) = pyStrip s := by
  unfold pyStrip
  apply congrArg String.mk
  show ((((((s.data.dropWhile isPySpace).reverse.dropWhile
      isPySpace).reverse).dropWhile isPySpace).reverse).dropWhile isPySpace).reverse = _
  set A := s.data.dropWhile isPySpace with hA
  set B := A.reverse.dropWhile isPySpace with hB
  have hY : B.reverse.dropWhile isPySpace = B.reverse := by
    apply dropWhile_eq_self_of_head
    intro a ha
    rw [List.head?_reverse] at ha
    have hBne : B ≠ [] := by
      intro he
      rw [he] at ha
      simp at ha
    rw [hB, dropWhile_getLast? _ _ (hB ▸ hBne), List.getLast?_reverse] at ha
    cases hAc : A with
    | nil => rw [hAc] at ha; simp at ha
    | cons a0 t0 =>
      rw [hAc] at ha
      simp only [List.head?_cons, Option.some.injEq] at ha
      subst ha
      exact dropWhile_head_false isPySpace s.data (hA.symm ▸ hAc)
  rw [hY, List.reverse_reverse, hB, dropWhile_idem]

/-! ## Data model -/

/-- Minimal info for one transaction, from `rpc_client.TxSignatureInfo`. -/
structure TxSignatureInfo where
  signature : String
  block_time : Option ℤ
deriving DecidableEq

/-- Structured metrics from wallet analysis, from `analyzer.WalletMetrics`.
Activity and risk levels are the literal strings the Python code uses. -/
structure WalletMetrics where
  tx_count : ℤ
  wallet_age_months : ℤ
  activity_score : ℝ
  activity_level : String
  suspicious_behavior_count : ℤ
  risk_flags : List String

/-! ## `analyzer.py` -/

/-- Embeds `analyzer._tx_count_to_activity_score`: map transaction count to a
0–100 activity score via the concave `ratio ** 0.6` curve. -/
noncomputable def tx_count_to_activity_score (tx_count : ℤ) : ℝ :=
  if tx_count ≤ 0 then 0.0
  else if TX_COUNT_FOR_FULL_ACTIVITY ≤ tx_count then 100.0
  else
    roundTo1 (min 100.0 (100.0 * ((tx_count : ℝ) / (TX_COUNT_FOR_FULL_ACTIVITY : ℝ)) ^ (0.6 : ℝ)))

/-- Embeds `analyzer._activity_score_to_level`. -/
noncomputable def activity_score_to_level (score : ℝ) : String :=
  if score < ACTIVITY_LEVEL_LOW_THRESHOLD then "low"
  else if ACTIVITY_LEVEL_HIGH_THRESHOLD ≤ score then "high"
  else "medium"

/-- Embeds `analyzer._oldest_block_time`: oldest `block_time`, ignoring `None`. -/
def oldest_block_time (infos : List TxSignatureInfo) : Option ℤ :=
  (infos.filterMap (fun i => i.block_time)).min?

/-- Embeds `analyzer._wallet_age_months`; `now` is the wall-clock reading that
the Python code obtains from `time.time()`. -/
def wallet_age_months_from_ts (now : ℤ) (oldest_ts : Option ℤ) : ℤ :=
  match oldest_ts with
  | none => 0
  | some ts => if now ≤ ts then 0 else max 0 ((now - ts) / SECONDS_PER_MONTH)

/-- Embeds `analyzer._compute_risk_flags`: sequential conditional appends,
in the source's order. -/
noncomputable def compute_risk_flags (tx_count wallet_age_months : ℤ)
    (activity_score : ℝ) : List String :=
  let flags : List String := []
  let flags := if wallet_age_months < 3 then flags ++ [RISK_NEW_WALLET] else flags
  let flags := if tx_count < 5 then flags ++ [RISK_LOW_ACTIVITY] else flags
  let flags :=
    if 80.0 ≤ activity_score ∧ wallet_age_months < 6 then flags ++ [RISK_HIGH_CHURN] else flags
  let flags :=
    if 0 < tx_count ∧ tx_count % 17 = 0 ∧ wallet_age_months < 12 then
      flags ++ [RISK_SUSPICIOUS_PATTERNS]
    else flags
  flags

/-! ## SHA-256 (embedding of `hashlib.sha256`, used by `_mock_wallet_age_months`)

Words are naturals kept below `2 ^ 32` by explicit reduction `mod32`.
The implementation follows FIPS 180-4 and reproduces the standard test
vectors for the empty string, for "abc" and for two-block messages. -/

def mod32 (n : ℕ) : ℕ := n % 4294967296

def rotr (k x : ℕ) : ℕ := mod32 ((x >>> k) ||| (x <<< (32 - k)))

def shaCh (e f g : ℕ) : ℕ := (e &&& f) ^^^ ((e ^^^ 4294967295) &&& g)

def shaMaj (a b c : ℕ) : ℕ := (a &&& b) ^^^ (a &&& c) ^^^ (b &&& c)

def bigS0 (x : ℕ) : ℕ := rotr 2 x ^^^ rotr 13 x ^^^ rotr 22 x

def bigS1 (x : ℕ) : ℕ := rotr 6 x ^^^ rotr 11 x ^^^ rotr 25 x

def smallS0 (x : ℕ) : ℕ := rotr 7 x ^^^ rotr 18 x ^^^ (x >>> 3)

def smallS1 (x : ℕ) : ℕ := rotr 17 x ^^^ rotr 19 x ^^^ (x >>> 10)

/-- Bisection kernel for the integer cube root. -/
def icbrtGo (n : ℕ) : ℕ → ℕ → ℕ → ℕ
  | 0, lo, _ => lo
  | fuel + 1, lo, hi =>
    if hi ≤ lo + 1 then lo
    else
      let mid := (lo + hi) / 2
      if mid ^ 3 ≤ n then icbrtGo n fuel mid hi else icbrtGo n fuel lo mid

/-- Integer cube root: the largest `r` with `r ^ 3 ≤ n`. -/
def icbrt (n : ℕ) : ℕ := icbrtGo n (n + 2) 0 (n + 1)

/-- The first 64 primes, which FIPS 180-4 uses to derive the constants. -/
def sha256Primes : List ℕ := ((List.range 320).filter (fun p => Nat.Prime p)).take 64

/-- SHA-256 round constants, derived as in FIPS 180-4: the first 32 bits of
the fractional part of the cube root of each of the first 64 primes
(so the word for prime `p` is `⌊p ^ (1/3) * 2^32⌋ mod 2^32`). This
derivation reproduces the standard table `428a2f98, 71374491, ...`. -/
def Kconsts : List ℕ := sha256Primes.map (fun p => icbrt (p * 2 ^ 96) % 2 ^ 32)

/-- SHA-256 initial hash state, derived as in FIPS 180-4: the first 32 bits
of the fractional part of the square root of each of the first 8 primes.
This derivation reproduces the standard values `6a09e667, bb67ae85, ...`. -/
def Hconsts : List ℕ := (sha256Primes.take 8).map (fun p => Nat.sqrt (p * 2 ^ 64) % 2 ^ 32)

/-- Big-endian byte rendering of `n` on `k` bytes. -/
def toBytesBE : ℕ → ℕ → List ℕ
  | 0, _ => []
  | k + 1, n => n / 256 ^ k % 256 :: toBytesBE k n

/-- SHA-256 message padding: append `0x80`, zero bytes up to 56 mod 64,
then the bit length on 8 big-endian bytes. -/
def shaPad (msg : List ℕ) : List ℕ :=
  msg ++ 128 :: List.replicate ((119 - msg.length % 64) % 64) 0 ++ toBytesBE 8 (8 * msg.length)

/-- Group bytes into big-endian 32-bit words. -/
def bytesToWords : List ℕ → List ℕ
  | a :: b :: c :: d :: rest => (((a * 256 + b) * 256 + c) * 256 + d) :: bytesToWords rest
  | _ => []

/-- Extend a 16-word block by `n` further message-schedule words. -/
def extendSchedule (w : List ℕ) : ℕ → List ℕ
  | 0 => w
  | n + 1 =>
    let v := extendSchedule w n
    let L := v.length
    v ++ [mod32 (smallS1 (v.getD (L - 2) 0) + v.getD (L - 7) 0
          + smallS0 (v.getD (L - 15) 0) + v.getD (L - 16) 0)]

/-- One SHA-256 round on the 8-word working state. -/
def shaStep (st : List ℕ) (kw : ℕ × ℕ) : List ℕ :=
  match st with
  | [a, b, c, d, e, f, g, h] =>
    let t1 := mod32 (h + bigS1 e + shaCh e f g + kw.1 + kw.2)
    let t2 := mod32 (bigS0 a + shaMaj a b c)
    [mod32 (t1 + t2), a, b, c, mod32 (d + t1), e, f, g]
  | st => st

/-- Compress one 16-word block into the hash state. -/
def shaCompress (H : List ℕ) (block : List ℕ) : List ℕ :=
  let w := extendSchedule block 48
  let final := (Kconsts.zip w).foldl shaStep H
  List.zipWith (fun x y => mod32 (x + y)) H final

/-- Fold the compression function over all 16-word blocks; the fuel is an
upper bound on the number of blocks (the word-list length suffices). -/
def shaBlocksGo : ℕ → List ℕ → List ℕ → List ℕ
  | 0, H, _ => H
  | fuel + 1, H, ws =>
    if ws = [] then H
    else shaBlocksGo fuel (shaCompress H (ws.take 16)) (ws.drop 16)

/-- SHA-256 digest of a byte list, as a 256-bit natural number. -/
def sha256Bytes (msg : List ℕ) : ℕ :=
  let ws := bytesToWords (shaPad msg)
  let H := shaBlocksGo ws.length Hconsts ws
  H.foldl (fun acc h => acc * 4294967296 + h) 0

/-- UTF-8 encoding of a single code point (Python's `str.encode("utf-8")`). -/
def utf8Bytes (c : ℕ) : List ℕ :=
  if c < 128 then [c]
  else if c < 2048 then [192 + c / 64, 128 + c % 64]
  else if c < 65536 then [224 + c / 4096, 128 + c / 64 % 64, 128 + c % 64]
  else [240 + c / 262144, 128 + c / 4096 % 64, 128 + c / 64 % 64, 128 + c % 64]

/-- UTF-8 bytes of a string. -/
def strBytes (s : String) : List ℕ := (s.data.map (fun c => utf8Bytes c.toNat)).flatten

/-- Lowercase hex character of a digit below 16. -/
def hexChar (d : ℕ) : Char := if d < 10 then Char.ofNat (48 + d) else Char.ofNat (87 + d)

/-- The 64-character lowercase hex rendering of a digest
(Python's `hashlib.sha256(...).hexdigest()`), leading zeros included. -/
def hexdigest (n : ℕ) : List Char := (List.range 64).map (fun i => hexChar (n / 16 ^ (63 - i) % 16))

/-- Numeric value of a lowercase hex character. -/
def hexCharVal (c : Char) : ℕ := if c.toNat < 97 then c.toNat - 48 else c.toNat - 87

/-- Python's `int(s, 16)` on a lowercase hex string. -/
def intFromHex (cs : List Char) : ℕ := cs.foldl (fun acc c => 16 * acc + hexCharVal c) 0

/-- Embeds `analyzer._mock_wallet_age_months`: deterministic mock wallet age
from the first 8 hex characters of the SHA-256 digest of the trimmed address. -/
def mock_wallet_age_months (wallet : String) : ℕ :=
  intFromHex ((hexdigest (sha256Bytes (strBytes (pyStrip wallet)))).take 8) % (MOCK_AGE_CAP_MONTHS + 1)

/-! ## `analyzer.analyze_wallet`

The RPC fetch `get_recent_transactions` and the wall clock `time.time()` are
I/O; they enter the model as the explicit parameters `fetch` and `now`. -/

/-- Embeds `analyzer.analyze_wallet`. -/
noncomputable def analyze_wallet (now : ℤ) (fetch : String → List TxSignatureInfo)
    (wallet : String) : WalletMetrics :=
  let wallet := pyStrip wallet
  let txs := fetch wallet
  let tx_count : ℤ := txs.length
  let oldest_ts := oldest_block_time txs
  let wallet_age_months : ℤ :=
    match oldest_ts with
    | some _ => wallet_age_months_from_ts now oldest_ts
    | none => (mock_wallet_age_months wallet : ℤ)
  let activity_score := tx_count_to_activity_score tx_count
  let activity_level := activity_score_to_level activity_score
  let risk_flags := compute_risk_flags tx_count wallet_age_months activity_score
  let suspicious_behavior_count : ℤ := risk_flags.length
  ⟨tx_count, wallet_age_months, activity_score, activity_level,
    suspicious_behavior_count, risk_flags⟩

/-! ## `scoring.py` -/

/-- Embeds `scoring.compute_trust_score`: weighted combination of age,
activity and risk components, rounded, clamped, then banded. -/
noncomputable def compute_trust_score (metrics : WalletMetrics) : ℤ × String :=
  let age_component : ℝ :=
    min 100.0 ((metrics.wallet_age_months : ℝ) * AGE_SCORE_PER_MONTH)
  let activity_component : ℝ := metrics.activity_score
  let penalty : ℝ := (metrics.suspicious_behavior_count : ℝ) * PENALTY_PER_FLAG
  let risk_component : ℝ := max 0.0 (100.0 - penalty)
  let score_float : ℝ :=
    WEIGHT_AGE * age_component + WEIGHT_ACTIVITY * activity_component
      + WEIGHT_RISK * risk_component
  let score : ℤ := max 0 (min 100 (pyRound score_float))
  let risk_level : String :=
    if THRESHOLD_LOW ≤ score then "Low"
    else if THRESHOLD_MEDIUM ≤ score then "Medium"
    else "High"
  (score, risk_level)

/-! ## Lemmas about `pyRound` and `roundTo1` -/

theorem floor_le_pyRound (x : ℝ) : ⌊x⌋ ≤ pyRound x := by
  unfold pyRound
  split_ifs <;> omega

theorem pyRound_le_floor_add_one (x : ℝ) : pyRound x ≤ ⌊x⌋ + 1 := by
  unfold pyRound
  split_ifs <;> omega

theorem pyRound_intCast (n : ℤ) : pyRound (n : ℝ) = n := by
  unfold pyRound
  rw [Int.floor_intCast]
  have h0 : (n : ℝ) - n = 0 := by ring
  rw [h0, if_pos (by norm_num)]

theorem pyRound_mono {x y : ℝ} (hxy : x ≤ y) : pyRound x ≤ pyRound y := by
  rcases lt_or_eq_of_le (Int.floor_le_floor hxy) with hlt | heq
  · have h1 := pyRound_le_floor_add_one x
    have h2 := floor_le_pyRound y
    omega
  · have hfr : x - ⌊x⌋ ≤ y - ⌊y⌋ := by
      rw [← heq]
      linarith
    unfold pyRound
    rw [← heq]
    split_ifs <;> first | omega | linarith

theorem pyRound_le_of_le {x : ℝ} {n : ℤ} (h : x ≤ (n : ℝ)) : pyRound x ≤ n := by
  have hm := pyRound_mono h
  rwa [pyRound_intCast] at hm

theorem le_pyRound_of_le {n : ℤ} {x : ℝ} (h : (n : ℝ) ≤ x) : n ≤ pyRound x := by
  have hm := pyRound_mono h
  rwa [pyRound_intCast] at hm

theorem pyRound_eq_of_bounds {x : ℝ} {k : ℤ} (h1 : (k : ℝ) - 1 / 2 < x)
    (h2 : x < (k : ℝ) + 1 / 2) : pyRound x = k := by
  by_cases hk : (k : ℝ) ≤ x
  · have hfl : ⌊x⌋ = k := Int.floor_eq_iff.mpr ⟨hk, by linarith⟩
    unfold pyRound
    rw [hfl, if_pos (by linarith)]
  · push_neg at hk
    have hfl : ⌊x⌋ = k - 1 := by
      apply Int.floor_eq_iff.mpr
      constructor
      · push_cast
        linarith
      · push_cast
        linarith
    unfold pyRound
    rw [hfl]
    have hc : ((k - 1 : ℤ) : ℝ) = (k : ℝ) - 1 := by push_cast; ring
    rw [hc]
    split_ifs <;> first | omega | linarith

theorem roundTo1_le {x : ℝ} {n : ℤ} (h : x ≤ (n : ℝ) / 10) : roundTo1 x ≤ (n : ℝ) / 10 := by
  unfold roundTo1
  have h10 : 10 * x ≤ (n : ℝ) := by linarith
  have hp : pyRound (10 * x) ≤ n := pyRound_le_of_le h10
  have : ((pyRound (10 * x) : ℤ) : ℝ) ≤ (n : ℝ) := by exact_mod_cast hp
  linarith

theorem le_roundTo1 {x : ℝ} {n : ℤ} (h : (n : ℝ) / 10 ≤ x) : (n : ℝ) / 10 ≤ roundTo1 x := by
  unfold roundTo1
  have h10 : (n : ℝ) ≤ 10 * x := by linarith
  have hp : n ≤ pyRound (10 * x) := le_pyRound_of_le h10
  have : (n : ℝ) ≤ ((pyRound (10 * x) : ℤ) : ℝ) := by exact_mod_cast hp
  linarith

/-! ## Bounds for the real power with exponent `0.6 = 3 / 5` -/

theorem rpow35_pow5 {a : ℝ} (ha : 0 ≤ a) : (a ^ ((3 : ℝ) / 5)) ^ (5 : ℕ) = a ^ (3 : ℕ) := by
  rw [← Real.rpow_natCast (a ^ ((3 : ℝ) / 5)) 5, ← Real.rpow_mul ha]
  norm_num
  rw [← Real.rpow_natCast a 3]
  norm_num

theorem rpow35_le_iff {a b : ℝ} (ha : 0 ≤ a) (hb : 0 ≤ b) :
    a ^ ((3 : ℝ) / 5) ≤ b ↔ a ^ (3 : ℕ) ≤ b ^ (5 : ℕ) := by
  have hr : 0 ≤ a ^ ((3 : ℝ) / 5) := Real.rpow_nonneg ha _
  rw [← rpow35_pow5 ha]
  exact (pow_le_pow_iff_left hr hb (by norm_num)).symm

theorem le_rpow35_iff {a b : ℝ} (ha : 0 ≤ a) (hb : 0 ≤ b) :
    b ≤ a ^ ((3 : ℝ) / 5) ↔ b ^ (5 : ℕ) ≤ a ^ (3 : ℕ) := by
  have hr : 0 ≤ a ^ ((3 : ℝ) / 5) := Real.rpow_nonneg ha _
  rw [← rpow35_pow5 ha]
  exact (pow_le_pow_iff_left hb hr (by norm_num)).symm

/-! ## The activity-score curve -/

theorem activity_nonpos {tx : ℤ} (h : tx ≤ 0) : tx_count_to_activity_score tx = 0 := by
  unfold tx_count_to_activity_score
  rw [if_pos h]
  norm_num

theorem activity_of_ge_100 {tx : ℤ} (h : 100 ≤ tx) : tx_count_to_activity_score tx = 100 := by
  unfold tx_count_to_activity_score TX_COUNT_FOR_FULL_ACTIVITY
  rw [if_neg (by omega), if_pos h]
  norm_num

theorem activity_middle {tx : ℤ} (h0 : 0 < tx) (h100 : tx < 100) :
    tx_count_to_activity_score tx
      = roundTo1 (min 100 (100 * ((tx : ℝ) / 100) ^ ((3 : ℝ) / 5))) := by
  unfold tx_count_to_activity_score TX_COUNT_FOR_FULL_ACTIVITY
  rw [if_neg (by omega), if_neg (by omega)]
  norm_num

theorem activity_at_50 : tx_count_to_activity_score 50 = 66 := by
  rw [activity_middle (by norm_num) (by norm_num)]
  have hb : ((50 : ℤ) : ℝ) / 100 = 1 / 2 := by norm_num
  rw [hb]
  have lb : (6596 / 10000 : ℝ) ≤ (1 / 2 : ℝ) ^ ((3 : ℝ) / 5) := by
    rw [le_rpow35_iff (by norm_num) (by norm_num)]
    norm_num
  have ub : (1 / 2 : ℝ) ^ ((3 : ℝ) / 5) ≤ 6599 / 10000 := by
    rw [rpow35_le_iff (by norm_num) (by norm_num)]
    norm_num
  set v := (1 / 2 : ℝ) ^ ((3 : ℝ) / 5) with hv
  have hmin : min (100 : ℝ) (100 * v) = 100 * v := min_eq_right (by nlinarith)
  rw [hmin]
  unfold roundTo1
  have h660 : pyRound (10 * (100 * v)) = 660 := by
    apply pyRound_eq_of_bounds
    · push_cast
      nlinarith
    · push_cast
      nlinarith
  rw [h660]
  norm_num

theorem activity_lt_80_of_lt_5 {tx : ℤ} (h : tx < 5) : tx_count_to_activity_score tx < 80 := by
  rcases le_or_lt tx 0 with h0 | h0
  · rw [activity_nonpos h0]
    norm_num
  · rw [activity_middle h0 (by omega)]
    have htx4 : (tx : ℝ) ≤ 4 := by exact_mod_cast (by omega : tx ≤ 4)
    have hbase : ((tx : ℝ) / 100) ≤ 4 / 100 := by linarith
    have hbase0 : (0 : ℝ) ≤ (tx : ℝ) / 100 := by positivity
    have hub : ((tx : ℝ) / 100) ^ ((3 : ℝ) / 5) ≤ (4 / 100 : ℝ) ^ ((3 : ℝ) / 5) :=
      Real.rpow_le_rpow hbase0 hbase (by norm_num)
    have hub2 : (4 / 100 : ℝ) ^ ((3 : ℝ) / 5) ≤ 79 / 100 := by
      rw [rpow35_le_iff (by norm_num) (by norm_num)]
      norm_num
    have hs : min (100 : ℝ) (100 * ((tx : ℝ) / 100) ^ ((3 : ℝ) / 5)) ≤ ((790 : ℤ) : ℝ) / 10 := by
      have h79 : (100 : ℝ) * ((tx : ℝ) / 100) ^ ((3 : ℝ) / 5) ≤ 79 := by nlinarith
      have := min_le_right (100 : ℝ) ((100 : ℝ) * ((tx : ℝ) / 100) ^ ((3 : ℝ) / 5))
      push_cast
      linarith
    have hr := roundTo1_le hs
    push_cast at hr
    linarith

theorem activity_nonneg (tx : ℤ) : 0 ≤ tx_count_to_activity_score tx := by
  rcases le_or_lt tx 0 with h0 | h0
  · rw [activity_nonpos h0]
  rcases le_or_lt 100 tx with h100 | h100
  · rw [activity_of_ge_100 h100]
    norm_num
  · rw [activity_middle h0 h100]
    have hbase0 : (0 : ℝ) ≤ (tx : ℝ) / 100 := by positivity
    have hpow : (0 : ℝ) ≤ ((tx : ℝ) / 100) ^ ((3 : ℝ) / 5) := Real.rpow_nonneg hbase0 _
    have hmin : ((0 : ℤ) : ℝ) / 10 ≤ min (100 : ℝ) (100 * ((tx : ℝ) / 100) ^ ((3 : ℝ) / 5)) := by
      have := le_min (by norm_num : (0 : ℝ) ≤ 100) (by nlinarith : (0 : ℝ) ≤ 100 * ((tx : ℝ) / 100) ^ ((3 : ℝ) / 5))
      push_cast
      linarith
    have hr := le_roundTo1 hmin
    push_cast at hr
    linarith

/-- Definition following the words of the spec (C2): below a positive count
the score is `0.0`, from 100 on it is `100.0`, otherwise
`100 * (tx_count / 100) ^ 0.6` rounded to one decimal place and clamped
to at most `100.0`. -/
noncomputable def spec_activity_score (tx_count : ℤ) : ℝ :=
  if tx_count ≤ 0 then 0.0
  else if 100 ≤ tx_count then 100.0
  else min 100.0 (roundTo1 (100.0 * ((tx_count : ℝ) / 100) ^ (0.6 : ℝ)))

/-- Claim C2: for every integer `tx_count` the activity-score mapping agrees
with the spec's three-branch formula: `0.0` for nonpositive counts, `100.0`
from 100 transactions on, and otherwise `100 * (tx_count / 100) ^ 0.6`
rounded to one decimal place and clamped to at most `100.0`. -/
theorem claim_c2 (tx : ℤ) : tx_count_to_activity_score tx = spec_activity_score tx := by
  unfold spec_activity_score
  rcases le_or_lt tx 0 with h0 | h0
  · rw [activity_nonpos h0, if_pos h0]
    norm_num
  rcases le_or_lt 100 tx with h100 | h100
  · rw [activity_of_ge_100 h100, if_neg (by omega), if_pos h100]
    norm_num
  · rw [if_neg (by omega), if_neg (by omega), activity_middle h0 h100]
    have h06 : (0.6 : ℝ) = (3 : ℝ) / 5 := by norm_num
    rw [h06]
    have hbase0 : (0 : ℝ) ≤ (tx : ℝ) / 100 := by positivity
    have hbase1 : (tx : ℝ) / 100 < 1 := by
      have : (tx : ℝ) ≤ 99 := by exact_mod_cast (by omega : tx ≤ 99)
      linarith
    have hlt1 : ((tx : ℝ) / 100) ^ ((3 : ℝ) / 5) < 1 :=
      Real.rpow_lt_one hbase0 hbase1 (by norm_num)
    have hs100 : (100 : ℝ) * ((tx : ℝ) / 100) ^ ((3 : ℝ) / 5) < 100 := by nlinarith
    have hmin : min (100 : ℝ) (100 * ((tx : ℝ) / 100) ^ ((3 : ℝ) / 5))
        = 100 * ((tx : ℝ) / 100) ^ ((3 : ℝ) / 5) := min_eq_right (by linarith)
    have hr100 : roundTo1 (100 * ((tx : ℝ) / 100) ^ ((3 : ℝ) / 5)) ≤ 100 := by
      have hb : (100 : ℝ) * ((tx : ℝ) / 100) ^ ((3 : ℝ) / 5) ≤ ((1000 : ℤ) : ℝ) / 10 := by
        push_cast
        linarith
      have := roundTo1_le hb
      push_cast at this
      linarith
    have hmin2 : min (100.0 : ℝ) (roundTo1 (100.0 * ((tx : ℝ) / 100) ^ ((3 : ℝ) / 5)))
        = roundTo1 (100.0 * ((tx : ℝ) / 100) ^ ((3 : ℝ) / 5)) := by
      apply min_eq_right
      norm_num
      exact hr100
    rw [hmin, hmin2]
    norm_num

/-- Counterexample for claim C3: the spec's boundary table says
`tx_count = 50 → 65.3`, but the curve gives
`round(100 * 0.5 ^ 0.6, 1) = round(65.975..., 1) = 66.0`. -/
theorem claim_c3_counterexample :
    ¬ (tx_count_to_activity_score 0 = 0.0 ∧ tx_count_to_activity_score 100 = 100.0
        ∧ tx_count_to_activity_score 50 = 65.3) := by
  intro h
  have h50 := h.2.2
  rw [activity_at_50] at h50
  norm_num at h50

/-- Claim C3 as amended: the activity-score mapping sends `tx_count = 0` to
`0.0`, `tx_count = 100` to `100.0`, and `tx_count = 50` to `66.0` (the spec's
`65.3` miscomputes `round(100 * 0.5 ^ 0.6, 1) = 66.0`). -/
theorem claim_c3_amended :
    tx_count_to_activity_score 0 = 0.0 ∧ tx_count_to_activity_score 100 = 100.0
      ∧ tx_count_to_activity_score 50 = 66.0 := by
  refine ⟨?_, ?_, ?_⟩
  · rw [activity_nonpos le_rfl]
    norm_num
  · rw [activity_of_ge_100 le_rfl]
    norm_num
  · rw [activity_at_50]
    norm_num

/-! ## The score calculator -/

/-- Unfolded first component of `compute_trust_score`. -/
theorem compute_trust_score_fst (m : WalletMetrics) :
    (compute_trust_score m).1 =
      max 0 (min 100 (pyRound (WEIGHT_AGE * min 100.0 ((m.wallet_age_months : ℝ) * AGE_SCORE_PER_MONTH)
        + WEIGHT_ACTIVITY * m.activity_score
        + WEIGHT_RISK * max 0.0 (100.0 - (m.suspicious_behavior_count : ℝ) * PENALTY_PER_FLAG)))) := rfl

/-- Unfolded second component of `compute_trust_score`: the band is computed
on the already clamped integer score. -/
theorem compute_trust_score_snd (m : WalletMetrics) :
    (compute_trust_score m).2 =
      (if THRESHOLD_LOW ≤ (compute_trust_score m).1 then "Low"
       else if THRESHOLD_MEDIUM ≤ (compute_trust_score m).1 then "Medium" else "High") := rfl

/-- Definition following the words of the spec (C1): the weighted sum of the
age, activity and risk components, rounded and clamped to `[0, 100]`. -/
noncomputable def spec_trust_score (wallet_age_months : ℤ) (activity_score : ℝ)
    (suspicious_behavior_count : ℤ) : ℤ :=
  max 0 (min 100 (pyRound (0.30 * min 100 ((wallet_age_months : ℝ) * 4)
    + 0.50 * activity_score
    + 0.20 * max 0 (100 - (suspicious_behavior_count : ℝ) * 25))))

/-- Definition following the words of the spec (C1): risk bands on the final
clamped integer score, with Medium explicitly the band `40 ≤ s < 70`. -/
def spec_risk_level (score : ℤ) : String :=
  if 70 ≤ score then "Low"
  else if 40 ≤ score ∧ score < 70 then "Medium"
  else "High"

/-- Claim C1: on any metrics within the documented ranges,
`compute_trust_score` returns exactly the spec's rounded clamped weighted
sum, paired with the risk level evaluated on that final clamped integer
(`≥ 70` Low, `40 ≤ s < 70` Medium, `< 40` High). -/
theorem claim_c1 (m : WalletMetrics) (htx : 0 ≤ m.tx_count) (hage : 0 ≤ m.wallet_age_months)
    (hact0 : 0 ≤ m.activity_score) (hact1 : m.activity_score ≤ 100)
    (hcnt : 0 ≤ m.suspicious_behavior_count) :
    compute_trust_score m =
      (spec_trust_score m.wallet_age_months m.activity_score m.suspicious_behavior_count,
       spec_risk_level
         (spec_trust_score m.wallet_age_months m.activity_score m.suspicious_behavior_count)) := by
  have hfst : (compute_trust_score m).1
      = spec_trust_score m.wallet_age_months m.activity_score m.suspicious_behavior_count := by
    rw [compute_trust_score_fst]
    unfold spec_trust_score WEIGHT_AGE WEIGHT_ACTIVITY WEIGHT_RISK AGE_SCORE_PER_MONTH
      PENALTY_PER_FLAG
    norm_num
  have hsnd : (compute_trust_score m).2
      = spec_risk_level
          (spec_trust_score m.wallet_age_months m.activity_score m.suspicious_behavior_count) := by
    rw [compute_trust_score_snd, hfst]
    unfold spec_risk_level THRESHOLD_LOW THRESHOLD_MEDIUM
    split_ifs <;> first | rfl | omega
  exact Prod.ext hfst hsnd

/-- Witness for C1 at a concrete metrics value. -/
theorem claim_c1_witness :
    compute_trust_score ⟨10, 10, 50, "medium", 1, ["new_wallet"]⟩
      = (spec_trust_score 10 50 1, spec_risk_level (spec_trust_score 10 50 1)) :=
  claim_c1 ⟨10, 10, 50, "medium", 1, ["new_wallet"]⟩ (by norm_num) (by norm_num) (by norm_num)
    (by norm_num) (by norm_num)

/-- Claim C7: with activity score and suspicious-behavior count held fixed,
the trust score is monotone in the wallet age. -/
theorem claim_c7 (tx : ℤ) (act : ℝ) (lvl : String) (cnt : ℤ) (flags : List String)
    (a1 a2 : ℤ) (h0 : 0 ≤ a1) (h12 : a1 ≤ a2) :
    (compute_trust_score ⟨tx, a1, act, lvl, cnt, flags⟩).1
      ≤ (compute_trust_score ⟨tx, a2, act, lvl, cnt, flags⟩).1 := by
  rw [compute_trust_score_fst, compute_trust_score_fst]
  dsimp only
  have hc : (a1 : ℝ) ≤ (a2 : ℝ) := by exact_mod_cast h12
  have hmono : min (100.0 : ℝ) ((a1 : ℝ) * AGE_SCORE_PER_MONTH)
      ≤ min (100.0 : ℝ) ((a2 : ℝ) * AGE_SCORE_PER_MONTH) := by
    apply min_le_min le_rfl
    unfold AGE_SCORE_PER_MONTH
    nlinarith
  have hw : (0 : ℝ) < WEIGHT_AGE := by unfold WEIGHT_AGE; norm_num
  have hF : WEIGHT_AGE * min 100.0 ((a1 : ℝ) * AGE_SCORE_PER_MONTH)
        + WEIGHT_ACTIVITY * act
        + WEIGHT_RISK * max 0.0 (100.0 - (cnt : ℝ) * PENALTY_PER_FLAG)
      ≤ WEIGHT_AGE * min 100.0 ((a2 : ℝ) * AGE_SCORE_PER_MONTH)
        + WEIGHT_ACTIVITY * act
        + WEIGHT_RISK * max 0.0 (100.0 - (cnt : ℝ) * PENALTY_PER_FLAG) := by
    nlinarith
  have hp := pyRound_mono hF
  omega

/-- Witness for C7 at concrete ages 2 and 5. -/
theorem claim_c7_witness :
    (compute_trust_score ⟨20, 2, 50, "medium", 0, []⟩).1
      ≤ (compute_trust_score ⟨20, 5, 50, "medium", 0, []⟩).1 :=
  claim_c7 20 50 "medium" 0 [] 2 5 (by norm_num) (by norm_num)

/-- Claim C8: within the documented metric ranges the rounded weighted sum
already lies in `[0, 100]`, so the final clamp of `compute_trust_score`
never changes the value. -/
theorem claim_c8 (m : WalletMetrics) (hage : 0 ≤ m.wallet_age_months)
    (hact0 : 0 ≤ m.activity_score) (hact1 : m.activity_score ≤ 100)
    (hcnt : 0 ≤ m.suspicious_behavior_count) :
    (compute_trust_score m).1
        = pyRound (0.30 * min 100 ((m.wallet_age_months : ℝ) * 4) + 0.50 * m.activity_score
            + 0.20 * max 0 (100 - (m.suspicious_behavior_count : ℝ) * 25))
      ∧ 0 ≤ (compute_trust_score m).1 ∧ (compute_trust_score m).1 ≤ 100 := by
  have ha : (0 : ℝ) ≤ (m.wallet_age_months : ℝ) := by exact_mod_cast hage
  have hcc : (0 : ℝ) ≤ (m.suspicious_behavior_count : ℝ) := by exact_mod_cast hcnt
  set E : ℝ := 0.30 * min 100 ((m.wallet_age_months : ℝ) * 4) + 0.50 * m.activity_score
      + 0.20 * max 0 (100 - (m.suspicious_behavior_count : ℝ) * 25) with hE
  have hminc0 : (0 : ℝ) ≤ min 100 ((m.wallet_age_months : ℝ) * 4) :=
    le_min (by norm_num) (by nlinarith)
  have hminc1 : min (100 : ℝ) ((m.wallet_age_months : ℝ) * 4) ≤ 100 := min_le_left _ _
  have hmaxc0 : (0 : ℝ) ≤ max 0 (100 - (m.suspicious_behavior_count : ℝ) * 25) :=
    le_max_left _ _
  have hmaxc1 : max (0 : ℝ) (100 - (m.suspicious_behavior_count : ℝ) * 25) ≤ 100 :=
    max_le (by norm_num) (by nlinarith)
  have hE0 : (0 : ℝ) ≤ E := by rw [hE]; nlinarith
  have hE1 : E ≤ 100 := by rw [hE]; nlinarith
  have hp0 : (0 : ℤ) ≤ pyRound E := le_pyRound_of_le (by push_cast; linarith)
  have hp1 : pyRound E ≤ 100 := pyRound_le_of_le (by push_cast; linarith)
  have hfst : (compute_trust_score m).1 = max 0 (min 100 (pyRound E)) := by
    rw [compute_trust_score_fst]
    unfold WEIGHT_AGE WEIGHT_ACTIVITY WEIGHT_RISK AGE_SCORE_PER_MONTH PENALTY_PER_FLAG
    rw [hE]
    norm_num
  refine ⟨?_, ?_, ?_⟩
  · rw [hfst]
    omega
  · rw [hfst]
    omega
  · rw [hfst]
    omega

/-- Witness for C8 at a concrete metrics value. -/
theorem claim_c8_witness :
    (compute_trust_score ⟨20, 10, 50, "medium", 0, []⟩).1
        = pyRound (0.30 * min 100 (((10 : ℤ) : ℝ) * 4) + 0.50 * (50 : ℝ)
            + 0.20 * max 0 (100 - ((0 : ℤ) : ℝ) * 25))
      ∧ 0 ≤ (compute_trust_score ⟨20, 10, 50, "medium", 0, []⟩).1
      ∧ (compute_trust_score ⟨20, 10, 50, "medium", 0, []⟩).1 ≤ 100 :=
  claim_c8 ⟨20, 10, 50, "medium", 0, []⟩ (by norm_num) (by norm_num) (by norm_num) (by norm_num)

/-! ## Risk flags -/

/-- Normal form of `compute_risk_flags`: the concatenation, in source order,
of the four independently tested singleton flags. -/
theorem compute_risk_flags_eq (tx age : ℤ) (act : ℝ) :
    compute_risk_flags tx age act =
      (if age < 3 then [RISK_NEW_WALLET] else [])
        ++ (if tx < 5 then [RISK_LOW_ACTIVITY] else [])
        ++ (if 80.0 ≤ act ∧ age < 6 then [RISK_HIGH_CHURN] else [])
        ++ (if 0 < tx ∧ tx % 17 = 0 ∧ age < 12 then [RISK_SUSPICIOUS_PATTERNS] else []) := by
  simp only [compute_risk_flags]
  split_ifs <;> simp

/-- The flag list never contains a duplicate identifier. -/
theorem compute_risk_flags_nodup (tx age : ℤ) (act : ℝ) :
    (compute_risk_flags tx age act).Nodup := by
  rw [compute_risk_flags_eq]
  split_ifs <;> decide

/-- Claim C4: the risk-flag computation appends exactly the four flags, in
exactly the listed order, each under its own independent condition. -/
theorem claim_c4 (tx age : ℤ) (act : ℝ) :
    compute_risk_flags tx age act =
      (if age < 3 then [RISK_NEW_WALLET] else [])
        ++ (if tx < 5 then [RISK_LOW_ACTIVITY] else [])
        ++ (if 80.0 ≤ act ∧ age < 6 then [RISK_HIGH_CHURN] else [])
        ++ (if 0 < tx ∧ tx % 17 = 0 ∧ age < 12 then [RISK_SUSPICIOUS_PATTERNS] else []) :=
  compute_risk_flags_eq tx age act

/-! ## The analyzer pipeline -/

/-- The risk flags of an analyzer result, unfolded. -/
theorem analyze_wallet_risk_flags (now : ℤ) (fetch : String → List TxSignatureInfo)
    (wallet : String) :
    (analyze_wallet now fetch wallet).risk_flags =
      compute_risk_flags ((fetch (pyStrip wallet)).length : ℤ)
        (analyze_wallet now fetch wallet).wallet_age_months
        (tx_count_to_activity_score ((fetch (pyStrip wallet)).length : ℤ)) := rfl

/-- Claim C6: every analyzer result satisfies
`suspicious_behavior_count = len(risk_flags)` and has duplicate-free flags. -/
theorem claim_c6 (now : ℤ) (fetch : String → List TxSignatureInfo) (wallet : String) :
    (analyze_wallet now fetch wallet).suspicious_behavior_count
        = ((analyze_wallet now fetch wallet).risk_flags.length : ℤ)
      ∧ (analyze_wallet now fetch wallet).risk_flags.Nodup := by
  constructor
  · rfl
  · rw [analyze_wallet_risk_flags]
    exact compute_risk_flags_nodup _ _ _

/-- On analyzer-derived activity scores, `low_activity` excludes the churn
and pattern flags, and at most three flags can fire. -/
theorem analyzer_flags_facts (tx age : ℤ) :
    ¬ (RISK_LOW_ACTIVITY ∈ compute_risk_flags tx age (tx_count_to_activity_score tx)
        ∧ RISK_HIGH_CHURN ∈ compute_risk_flags tx age (tx_count_to_activity_score tx))
    ∧ ¬ (RISK_LOW_ACTIVITY ∈ compute_risk_flags tx age (tx_count_to_activity_score tx)
        ∧ RISK_SUSPICIOUS_PATTERNS ∈ compute_risk_flags tx age (tx_count_to_activity_score tx))
    ∧ (compute_risk_flags tx age (tx_count_to_activity_score tx)).length ≤ 3 := by
  rw [compute_risk_flags_eq]
  by_cases h5 : tx < 5
  · have hact := activity_lt_80_of_lt_5 h5
    have hchurn : ¬ ((80.0 : ℝ) ≤ tx_count_to_activity_score tx ∧ age < 6) := by
      intro hc
      have h1 := hc.1
      norm_num at h1
      linarith
    have hsusp : ¬ (0 < tx ∧ tx % 17 = 0 ∧ age < 12) := by omega
    rw [if_pos h5, if_neg hchurn, if_neg hsusp]
    split_ifs <;> decide
  · rw [if_neg h5]
    split_ifs <;> decide

/-- Claim C9: in every analyzer result, `low_activity` never co-occurs with
`high_churn` nor with `suspicious_patterns`, so the suspicious-behavior
count is at most 3, never 4. -/
theorem claim_c9 (now : ℤ) (fetch : String → List TxSignatureInfo) (wallet : String) :
    ¬ (RISK_LOW_ACTIVITY ∈ (analyze_wallet now fetch wallet).risk_flags
        ∧ RISK_HIGH_CHURN ∈ (analyze_wallet now fetch wallet).risk_flags)
    ∧ ¬ (RISK_LOW_ACTIVITY ∈ (analyze_wallet now fetch wallet).risk_flags
        ∧ RISK_SUSPICIOUS_PATTERNS ∈ (analyze_wallet now fetch wallet).risk_flags)
    ∧ (analyze_wallet now fetch wallet).suspicious_behavior_count ≤ 3 := by
  have hfacts := analyzer_flags_facts ((fetch (pyStrip wallet)).length : ℤ)
    (analyze_wallet now fetch wallet).wallet_age_months
  rw [← analyze_wallet_risk_flags] at hfacts
  refine ⟨hfacts.1, hfacts.2.1, ?_⟩
  have hcount : (analyze_wallet now fetch wallet).suspicious_behavior_count
      = ((analyze_wallet now fetch wallet).risk_flags.length : ℤ) := rfl
  rw [hcount]
  exact_mod_cast hfacts.2.2

/-! ## Mock wallet age and address trimming -/

/-- The wallet age of an analyzer result, unfolded. -/
theorem analyze_wallet_age (now : ℤ) (fetch : String → List TxSignatureInfo)
    (wallet : String) :
    (analyze_wallet now fetch wallet).wallet_age_months =
      (match oldest_block_time (fetch (pyStrip wallet)) with
       | some _ => wallet_age_months_from_ts now (oldest_block_time (fetch (pyStrip wallet)))
       | none => (mock_wallet_age_months (pyStrip wallet) : ℤ)) := rfl

/-- Definition following the words of the spec (C5): the first 8 hex
characters of the SHA-256 digest of the trimmed wallet address, read as an
unsigned integer, reduced modulo 25. -/
def spec_mock_age (wallet : String) : ℕ :=
  intFromHex ((hexdigest (sha256Bytes (strBytes (pyStrip wallet)))).take 8) % 25

/-- Claim C5: when no fetched record carries a timestamp (including the
zero-record case) the wallet age is the spec's hash formula on the trimmed
address; it does not depend on the clock and lies in `[0, 24]`. -/
theorem claim_c5 (now now' : ℤ) (fetch : String → List TxSignatureInfo) (wallet : String)
    (h : ∀ r ∈ fetch (pyStrip wallet), r.block_time = none) :
    (analyze_wallet now fetch wallet).wallet_age_months = (spec_mock_age wallet : ℤ)
    ∧ (analyze_wallet now fetch wallet).wallet_age_months
        = (analyze_wallet now' fetch wallet).wallet_age_months
    ∧ 0 ≤ (analyze_wallet now fetch wallet).wallet_age_months
    ∧ (analyze_wallet now fetch wallet).wallet_age_months ≤ 24 := by
  have hnone : oldest_block_time (fetch (pyStrip wallet)) = none := by
    unfold oldest_block_time
    have hfm : (fetch (pyStrip wallet)).filterMap (fun i => i.block_time) = [] :=
      List.filterMap_eq_nil.mpr h
    rw [hfm]
    rfl
  have hage : ∀ t : ℤ, (analyze_wallet t fetch wallet).wallet_age_months
      = (mock_wallet_age_months (pyStrip wallet) : ℤ) := by
    intro t
    rw [analyze_wallet_age, hnone]
  have hmock : mock_wallet_age_months (pyStrip wallet) = spec_mock_age wallet := by
    unfold mock_wallet_age_months spec_mock_age MOCK_AGE_CAP_MONTHS
    rw [pyStrip_idem]
  have hlt : mock_wallet_age_months (pyStrip wallet) < 25 := by
    unfold mock_wallet_age_months MOCK_AGE_CAP_MONTHS
    exact Nat.mod_lt _ (by norm_num)
  refine ⟨?_, ?_, ?_, ?_⟩
  · rw [hage now, hmock]
  · rw [hage now, hage now']
  · rw [hage now]
    exact Int.natCast_nonneg _
  · rw [hage now]
    have h24 : mock_wallet_age_months (pyStrip wallet) ≤ 24 := by omega
    exact_mod_cast h24

/-- Witness for C5 on the empty record set and the address "abc". -/
theorem claim_c5_witness :
    (analyze_wallet 1000 (fun _ => []) "abc").wallet_age_months = (spec_mock_age "abc" : ℤ)
    ∧ (analyze_wallet 1000 (fun _ => []) "abc").wallet_age_months
        = (analyze_wallet 2000 (fun _ => []) "abc").wallet_age_months
    ∧ 0 ≤ (analyze_wallet 1000 (fun _ => []) "abc").wallet_age_months
    ∧ (analyze_wallet 1000 (fun _ => []) "abc").wallet_age_months ≤ 24 :=
  claim_c5 1000 2000 (fun _ => []) "abc" (by intro r hr; exact absurd hr (List.not_mem_nil r))

/-- Claim C10: the analyzer uses the wallet address only through its stripped
form, so two addresses that agree after stripping give identical metrics for
the same fetch function and clock reading. -/
theorem claim_c10 (now : ℤ) (fetch : String → List TxSignatureInfo) (w1 w2 : String)
    (h : pyStrip w1 = pyStrip w2) :
    analyze_wallet now fetch w1 = analyze_wallet now fetch w2 := by
  unfold analyze_wallet
  rw [h]

/-- Witness for C10 on a padded and an unpadded copy of the same address. -/
theorem claim_c10_witness :
    analyze_wallet 0 (fun _ => []) " abc " = analyze_wallet 0 (fun _ => []) "abc" :=
  claim_c10 0 (fun _ => []) " abc " "abc" (by decide)

end BlockId
